import Mathlib

/-!
Verification development for the crawl coordinator of `crawl.py` (Bitcoin
network crawler).  The Python source is shallowly embedded: pure helpers
become Lean functions, the Redis-backed shared state becomes an explicit
record threaded through the session functions, and each external
collaborator (the wire-level peer client, the `ipaddress`/`socket` stdlib
parsers, DNS) is a parameter supplying its observed outputs.  A Python
exception that escapes a function is modelled by `Option`/`none` on the
embedded function's result.
-/

/-- An endpoint triple `(address, port, services)` - the canonical identity
used across queues and keys in `crawl.py`.  The source serialises the triple
as `str((address, port, services))` for set members and as
`node:address-port-services` for keys; since serialisation is injective on
the triples appearing here, the embedding carries the structured triple. -/
structure Endpoint where
  address : String
  port : Nat
  services : Nat
deriving DecidableEq, Repr

/-- Key `node:address-port-services` as built in `task` (crawl.py:416) and
`connect` (crawl.py:211). -/
def nodeKeyStr (e : Endpoint) : String :=
  "node:" ++ e.address ++ "-" ++ toString e.port ++ "-" ++ toString e.services

/-- Key `height:address-port-services` as built in `connect` (crawl.py:214). -/
def heightKeyStr (address : String) (port services : Nat) : String :=
  "height:" ++ address ++ "-" ++ toString port ++ "-" ++ toString services

/-- Redis `SADD` on a set represented as a duplicate-free list: add the
element if absent.  List order stands in for the store's arbitrary set
order. -/
def pyAdd {α : Type} [DecidableEq α] (l : List α) (x : α) : List α :=
  if x ∈ l then l else l ++ [x]

/-- Redis `SET key value`: overwrite any previous binding for the key. -/
def storeSet {α : Type} (l : List (String × α)) (k : String) (v : α) :
    List (String × α) :=
  (k, v) :: l.filter (fun kv => kv.1 ≠ k)

/-- Redis `GET key` on an association list. -/
def storeGet {α : Type} (l : List (String × α)) (k : String) : Option α :=
  (l.find? (fun kv => kv.1 == k)).map (fun kv => kv.2)

/-- Value of a Redis counter key (`INCR` target): missing key counts as 0. -/
def cidrGet (l : List (String × Nat)) (k : String) : Nat :=
  match l.find? (fun kv => kv.1 == k) with
  | some kv => kv.2
  | none => 0

/-- Write a counter key. -/
def cidrSet (l : List (String × Nat)) (k : String) (v : Nat) :
    List (String × Nat) :=
  (k, v) :: l.filter (fun kv => kv.1 ≠ k)

/-- Redis `SPOP` (random member): the worker's draw is modelled by an index
`i`, reduced modulo the set size.  Returns the popped member and the
remaining set; `none` on an empty set. -/
def spopAt (l : List Endpoint) (i : Nat) : Option Endpoint × List Endpoint :=
  match l with
  | [] => (none, [])
  | _ => (l.get? (i % l.length), l.eraseIdx (i % l.length))

/-- Redis `LPOP`: pop the head of a list. -/
def pyLpop {α : Type} : List α → Option α × List α
  | [] => (none, [])
  | x :: r => (some x, r)

/-- Redis `LPUSH`: push onto the head of a list. -/
def pyLpush {α : Type} (l : List α) (x : α) : List α := x :: l

/-- Python `s.endswith(suff)` over the character sequence (structural, so a
concrete call evaluates in the kernel). -/
def pyEndsWith (s suff : String) : Bool :=
  suff.data.isSuffixOf s.data

/-- Python `c in s` for a single character. -/
def pyContainsChar (s : String) (c : Char) : Bool :=
  s.data.contains c

/-! ## Exclusion filter (`is_excluded`, crawl.py:469-507)

The Python stdlib parsers `ipaddress.ip_address` and `socket.inet_pton` are
external collaborators; the embedding abstracts them as an `IpLib` record.
`ip_address address` is `none` when the call raises `ValueError` (the string
is not an IP address at all) and `some isPrivate` otherwise;
`inet_pton fam address` is `none` when the call raises `socket.error`. -/

/-- Address family, selected in the source by `':' in address`. -/
inductive Family
  | v4
  | v6
deriving DecidableEq, Repr

/-- External stdlib parsers used by `is_excluded`. -/
structure IpLib where
  ip_address : String → Option Bool
  inet_pton : Family → String → Option Nat

/-- Family of an address string (crawl.py:493-498). -/
def famOf (a : String) : Family :=
  if pyContainsChar a ':' then Family.v6 else Family.v4

/-- Rule list for a family, given the two compiled lists (possibly not yet
loaded). -/
def netsFor (fam : Family) (v4nets v6nets : Option (List (Nat × Nat))) :
    Option (List (Nat × Nat)) :=
  match fam with
  | Family.v6 => v6nets
  | Family.v4 => v4nets

/-- `is_excluded(address)` (crawl.py:469-507).  `v4nets`/`v6nets` are
`CONF['current_exclude_ipv4_networks']`/`...ipv6...` (`none` = not loaded).
Result `none` models the uncaught `ValueError` raised by
`ip_address(address)` on a string that is not an IP address; `some b` is the
returned boolean.  Note the source checks `None in ([v6, v4])`, i.e. it
fails closed whenever either family's list is unloaded, and it only catches
`socket.error` from `inet_pton`, not the earlier `ValueError`. -/
def is_excluded (lib : IpLib) (v4nets v6nets : Option (List (Nat × Nat)))
    (address : String) : Option Bool :=
  if pyEndsWith address ".onion" then some false
  else
    match lib.ip_address address with
    | none => none
    | some isPriv =>
      if isPriv then some true
      else if v6nets.isNone || v4nets.isNone then some true
      else
        match lib.inet_pton (famOf address) address with
        | none => some true
        | some addr =>
          some (((netsFor (famOf address) v4nets v6nets).getD []).any
            (fun net => addr &&& net.2 == net.1))

/-- The rules of claim C3 taken literally: a total boolean function that
checks, first-match-wins: onion included; private excluded; family list
unloaded excluded; unparseable-in-family excluded; bitmask match excluded;
otherwise included. -/
def is_excluded_claim (lib : IpLib) (v4nets v6nets : Option (List (Nat × Nat)))
    (address : String) : Bool :=
  if pyEndsWith address ".onion" then false
  else if (lib.ip_address address).getD false then true
  else
    match netsFor (famOf address) v4nets v6nets with
    | none => true
    | some nets =>
      match lib.inet_pton (famOf address) address with
      | none => true
      | some addr => nets.any (fun net => addr &&& net.2 == net.1)

/-! ## Configuration

The subset of `CONF` (crawl.py:571-633) that the embedded functions read.
The two IPv6 rate-limit settings keep the source's meaning but are renamed
(`ipv6_plen` for the configured IPv6 network length, `nodes_per_plen` for
the per-network node cap). -/

/-- Crawl configuration values read by the embedded functions. -/
structure Conf where
  port : Nat
  socket_timeout : Nat
  max_age : Int
  peers_per_node : Nat
  max_nodes : Nat
  ipv6 : Bool
  onion : Bool
  ipv6_plen : Nat
  nodes_per_plen : Nat
  include_checked : Bool
  snapshot_delay : Int
deriving DecidableEq, Repr

/-! ## PeerCache: `getaddr` (crawl.py:67-89) and `get_peers` (crawl.py:92-130)

The wire-level peer client is external; one call to
`conn.get_messages(commands=[b'addr', b'addrv2'])` is modelled by `polls i`
(`none` models a caught protocol/connection/socket error, which breaks the
poll loop). -/

/-- One entry of an `addr`/`addrv2` message's `addr_list`.  The three
address fields mirror the source's `peer['ipv4'] or peer['ipv6'] or
peer['onion']` chain, with the empty string standing for a falsy field. -/
structure AddrPeer where
  timestamp : Int
  ipv4 : String
  ipv6 : String
  onion : String
  port : Nat
  services : Nat
deriving DecidableEq, Repr

/-- One buffered `addr`/`addrv2` message: its `count` field and its
`addr_list` (`none` models a message dict without an `addr_list` key). -/
structure AddrMsg where
  count : Nat
  addr_list : Option (List AddrPeer)
deriving DecidableEq, Repr

/-- A peer tuple `(address, port, services, timestamp)` as collected by
`get_peers`. -/
structure Peer4 where
  address : String
  port : Nat
  services : Nat
  timestamp : Int
deriving DecidableEq, Repr

/-- `address = peer['ipv4'] or peer['ipv6'] or peer['onion']`
(crawl.py:111). -/
def pickAddress (p : AddrPeer) : String :=
  if p.ipv4 ≠ "" then p.ipv4
  else if p.ipv6 ≠ "" then p.ipv6
  else p.onion

/-- The poll loop of `getaddr` (crawl.py:77-88): up to `fuel` polls starting
at poll index `i`; a poll error breaks with `[]`; a non-empty batch in which
some message has `count > 1` is accepted whole. -/
def getaddrLoop (polls : Nat → Option (List AddrMsg)) :
    Nat → Nat → List AddrMsg
  | 0, _ => []
  | fuel + 1, i =>
    match polls i with
    | none => []
    | some msgs =>
      if (!msgs.isEmpty) && msgs.any (fun m => decide (1 < m.count)) then msgs
      else getaddrLoop polls fuel (i + 1)

/-- `getaddr(conn)` (crawl.py:67-89).  `sendOk` is false when the initial
`conn.getaddr(block=False)` raises (caught; no polling happens). -/
def getaddr (socket_timeout : Nat) (sendOk : Bool)
    (polls : Nat → Option (List AddrMsg)) : List AddrMsg :=
  if sendOk then getaddrLoop polls socket_timeout 0 else []

/-- The per-entry body of `get_peers`'s inner loop (crawl.py:106-120),
folded over one `addr_list` with accumulator `acc`.  Result `none` models an
uncaught exception escaping from `is_excluded`. -/
def collectPeers (conf : Conf) (lib : IpLib)
    (v4nets v6nets : Option (List (Nat × Nat))) (now : Int) :
    List AddrPeer → List Peer4 → Option (List Peer4)
  | [], acc => some acc
  | p :: ps, acc =>
    let age := now - p.timestamp
    if age < 0 || conf.max_age < age then
      collectPeers conf lib v4nets v6nets now ps acc
    else
      let address := pickAddress p
      let port := if 0 < p.port then p.port else conf.port
      if address = "" then collectPeers conf lib v4nets v6nets now ps acc
      else
        match is_excluded lib v4nets v6nets address with
        | none => none
        | some true => collectPeers conf lib v4nets v6nets now ps acc
        | some false =>
          collectPeers conf lib v4nets v6nets now ps
            (pyAdd acc ⟨address, port, p.services, p.timestamp⟩)

/-- The outer loop of `get_peers` over the accepted messages
(crawl.py:102-104): messages without an `addr_list` key are skipped. -/
def collectMsgs (conf : Conf) (lib : IpLib)
    (v4nets v6nets : Option (List (Nat × Nat))) (now : Int) :
    List AddrMsg → List Peer4 → Option (List Peer4)
  | [], acc => some acc
  | m :: ms, acc =>
    match m.addr_list with
    | none => collectMsgs conf lib v4nets v6nets now ms acc
    | some l =>
      match collectPeers conf lib v4nets v6nets now l acc with
      | none => none
      | some acc2 => collectMsgs conf lib v4nets v6nets now ms acc2

/-- `get_peers(conn)` (crawl.py:92-130): collect the accepted messages'
entries, reject everything if more than 1000 peers were collected, then
truncate to `peers_per_node`. -/
def get_peers (conf : Conf) (lib : IpLib)
    (v4nets v6nets : Option (List (Nat × Nat))) (now : Int) (sendOk : Bool)
    (polls : Nat → Option (List AddrMsg)) : Option (List Peer4) :=
  match collectMsgs conf lib v4nets v6nets now
      (getaddr conf.socket_timeout sendOk polls) [] with
  | none => none
  | some peers =>
    let peers2 := if 1000 < peers.length then [] else peers
    some (peers2.take conf.peers_per_node)

/-! ## Shared store state and the discover session (`connect`, crawl.py:158-230)

`RS` holds the store keys the coordinator owns.  Members of `up` and
`mempool_pending` are carried as structured triples (the source stores the
strings `node:a-p-s` resp. `str([a, p, s])`, whose construction is injective
for the hyphen-free addresses the crawler handles).  TTLs are not modelled;
no claim depends on key expiry. -/

/-- Handshake result, `version_msg` fields read by `connect`
(crawl.py:202-205). -/
structure VersionMsg where
  version : Nat
  user_agent : String
  services : Nat
  height : Int
deriving DecidableEq, Repr

/-- The coordinator-owned Redis state. -/
structure RS where
  pending : List Endpoint
  up : List Endpoint
  nodeKeys : List String
  heights : List (String × Int)
  versions : List (String × (Nat × String × Nat))
  mempool : List Endpoint
  cidr : List (String × Nat)
deriving DecidableEq, Repr

/-- The empty store. -/
def emptyRS : RS := ⟨[], [], [], [], [], [], []⟩

/-- `connect(key, redis_conn)` (crawl.py:158-230) as a state transformer.
`e` is the candidate triple parsed from the key; `hs` is the handshake
result (`none`: open/handshake raised, caught at crawl.py:197); `peersRes`
is the outcome of `get_cached_peers` (`none`: an exception escaped it, in
which case the function dies before `pipe.execute()` and only the initial
`set(key, '')` has landed).  On success the claim key is rewritten to the
advertised services when they differ (crawl.py:207-211), but the
`mempool_pending` push uses `key_tuple`, which was parsed from the original
key at crawl.py:171 and never rewritten; the push is an `LPUSH` (head). -/
def connect (e : Endpoint) (hs : Option VersionMsg)
    (peersRes : Option (List Endpoint)) (s : RS) : RS :=
  let s0 : RS := { s with nodeKeys := pyAdd s.nodeKeys (nodeKeyStr e) }
  match hs with
  | none => s0
  | some vm =>
    match peersRes with
    | none => s0
    | some peers =>
      let tgt : Endpoint :=
        if vm.services ≠ e.services then { e with services := vm.services }
        else e
      { s0 with
        heights :=
          storeSet s0.heights (heightKeyStr e.address e.port vm.services)
            vm.height,
        versions :=
          storeSet s0.versions
            ("version:" ++ e.address ++ "-" ++ toString e.port)
            (vm.version, vm.user_agent, vm.services),
        pending := peers.foldl pyAdd s0.pending,
        nodeKeys := pyAdd s0.nodeKeys (nodeKeyStr tgt),
        up := pyAdd s0.up tgt,
        mempool := pyLpush s0.mempool e }

/-! ## Session connection-event traces (for claim C9)

`connect` (crawl.py:193-230) and `ask_mempool` (crawl.py:233-271) produce a
sequence of operations on the external connection. -/

/-- Connection-level events of one session. -/
inductive CEvent
  | connOpen
  | connHandshake
  | connGetaddr
  | connMempool
  | connClose
deriving DecidableEq, Repr

/-- Outcome of the `conn.open(); conn.handshake()` block in `connect`. -/
inductive SessOutcome
  | openFail
  | handshakeFail
  | handshakeOk (vm : VersionMsg)
deriving DecidableEq, Repr

/-- Connection events of a discover session.  On open/handshake errors the
exception is caught and `conn.close()` (crawl.py:229) is still reached; if
`get_cached_peers` raises (`peersRes = none`), the exception propagates and
`conn.close()` is never executed. -/
def connectTrace (out : SessOutcome) (peersRes : Option (List Endpoint)) :
    List CEvent :=
  match out with
  | SessOutcome.openFail => [CEvent.connOpen, CEvent.connClose]
  | SessOutcome.handshakeFail =>
    [CEvent.connOpen, CEvent.connHandshake, CEvent.connClose]
  | SessOutcome.handshakeOk _ =>
    match peersRes with
    | none => [CEvent.connOpen, CEvent.connHandshake, CEvent.connGetaddr]
    | some _ =>
      [CEvent.connOpen, CEvent.connHandshake, CEvent.connGetaddr,
        CEvent.connClose]

/-- Outcome of the `conn.open(); conn.mempool()` block in `ask_mempool`. -/
inductive MempoolOutcome
  | openFail
  | reqFail
  | reqOk (invCount : Nat)
deriving DecidableEq, Repr

/-- Connection events of a mempool-ask session (crawl.py:233-271).  The
source contains no `conn.close()` call on any path of `ask_mempool`. -/
def askMempoolTrace (out : MempoolOutcome) : List CEvent :=
  match out with
  | MempoolOutcome.openFail => [CEvent.connOpen]
  | MempoolOutcome.reqFail => [CEvent.connOpen, CEvent.connMempool]
  | MempoolOutcome.reqOk _ => [CEvent.connOpen, CEvent.connMempool]

/-! ## Snapshot dump (`dump`, crawl.py:274-301)

`dump` receives the raw member strings of the `up` set and re-parses each
with `node.decode()[5:].split('-', 2)`, then `int()` on the port and
services parts.  The embedding parses the same way at character level. -/

/-- Split a character list at the first `-`: the part before it and the rest
after it, or `none` if there is no `-`. -/
def breakDash : List Char → Option (List Char × List Char)
  | [] => none
  | c :: cs =>
    if c = '-' then some ([], cs)
    else
      match breakDash cs with
      | none => none
      | some (a, r) => some (c :: a, r)

/-- `key[5:].split('-', 2)` destructured into exactly three parts
(crawl.py:283): strip the 5-character `node:` prefix, then split at the
first two dashes, keeping the remainder whole.  `none` models the
`ValueError` the Python unpacking raises when there are fewer than two
dashes. -/
def parseKey (k : String) : Option (String × String × String) :=
  match breakDash (k.data.drop 5) with
  | none => none
  | some (a, r1) =>
    match breakDash r1 with
    | none => none
    | some (p, r2) => some (⟨a⟩, ⟨p⟩, ⟨r2⟩)

/-- Python `int(s)` restricted to the non-empty digit strings that node keys
contain (`none` models `ValueError` on anything else). -/
def pyNatAux : List Char → Nat → Option Nat
  | [], acc => some acc
  | c :: cs, acc =>
    if 48 ≤ c.toNat && c.toNat ≤ 57 then
      pyNatAux cs (acc * 10 + (c.toNat - 48))
    else none

/-- Python `int(s)` on a digit string. -/
def pyIntOfStr (s : String) : Option Int :=
  match s.data with
  | [] => none
  | l => (pyNatAux l 0).map Int.ofNat

/-- One row `[address, int(port), int(services), height]` of the snapshot
array (crawl.py:282-290). -/
structure JEntry where
  address : String
  port : Int
  services : Int
  height : Int
deriving DecidableEq, Repr

/-- The per-node body of `dump`'s loop (crawl.py:282-290): parse the key,
read `height:address-port-services` (a missing key raises `TypeError`,
caught, and records height 0 with a warning), convert port and services with
`int()`.  `none` models an uncaught parse/convert exception. -/
def entryOf (store : String → Option Int) (k : String) : Option JEntry :=
  match parseKey k with
  | none => none
  | some (address, ps, ss) =>
    let height :=
      (store ("height:" ++ address ++ "-" ++ ps ++ "-" ++ ss)).getD 0
    match pyIntOfStr ps, pyIntOfStr ss with
    | some pn, some sn => some ⟨address, pn, sn, height⟩
    | _, _ => none

/-- `json_data` built in order over the `up` members; the first failing node
propagates the exception. -/
def buildJson (store : String → Option Int) : List String → Option (List JEntry)
  | [] => some []
  | k :: ks =>
    match entryOf store k with
    | none => none
    | some e => (buildJson store ks).map (fun js => e :: js)

/-- Distinct values of a list in order of first occurrence, skipping values
already in `seen`. -/
def firstOccsAux : List Int → List Int → List Int
  | [], _ => []
  | x :: xs, seen =>
    if x ∈ seen then firstOccsAux xs seen
    else x :: firstOccsAux xs (x :: seen)

/-- Distinct values of a list in order of first occurrence - the key order
of a Python `Counter` built from the list. -/
def firstOccs (l : List Int) : List Int := firstOccsAux l []

/-- `Counter(l).most_common(1)[0][0]`: the value with the maximal count; on
ties, the first-inserted key wins (Python's sort is stable). -/
def mostCommon (l : List Int) : Int :=
  let cands := firstOccs l
  let m := (cands.map (fun x => l.count x)).foldl Nat.max 0
  match cands.find? (fun x => l.count x == m) with
  | some x => x
  | none => 0

/-- `dump(timestamp, nodes, redis_conn)` (crawl.py:274-301).  Returns
`(file, height)` where `file = some json_data` if the snapshot file was
written and `none` if `json_data` was empty (crawl.py:293-295: warning
logged, no file, return 0); the outer `none` models an uncaught exception
from a malformed key. -/
def dump (store : String → Option Int) (nodes : List String) :
    Option (Option (List JEntry) × Int) :=
  match buildJson store nodes with
  | none => none
  | some js =>
    if js.isEmpty then some (none, 0)
    else some (some js, mostCommon (js.map (fun e => e.height)))

/-! ## Pass restart (`restart`, crawl.py:304-346)

State effects of the pipelined block: read `up`, delete it, re-add each of
its members to `pending`, delete every `node:*` claim and `crawl:cidr:*`
counter, and optionally re-add recently checked endpoints subject to the
exclusion filter.  The `nodes` history push, the filter refresh and the
`dump` call have no effect on the modelled keys. -/

/-- The `include_checked` loop (crawl.py:327-335): re-add each checked
endpoint unless excluded; `none` models `is_excluded` raising. -/
def addChecked (lib : IpLib) (v4nets v6nets : Option (List (Nat × Nat))) :
    List Endpoint → RS → Option RS
  | [], s => some s
  | e :: es, s =>
    match is_excluded lib v4nets v6nets e.address with
    | none => none
    | some true => addChecked lib v4nets v6nets es s
    | some false =>
      addChecked lib v4nets v6nets es
        { s with pending := pyAdd s.pending e }

/-- `restart` (crawl.py:304-346) as a state transformer; `checked` is the
decoded result of the `zrangebyscore('check', ...)` read. -/
def restartState (conf : Conf) (lib : IpLib)
    (v4nets v6nets : Option (List (Nat × Nat))) (checked : List Endpoint)
    (s : RS) : Option RS :=
  let base : RS :=
    { s with
      up := [],
      pending := s.up.foldl pyAdd s.pending,
      nodeKeys := [],
      cidr := [] }
  if conf.include_checked then addChecked lib v4nets v6nets checked base
  else some base

/-! ## Worker loop (`task`, crawl.py:378-431)

One iteration of the loop body, from the mode draw to the dispatch decision.
External inputs of an iteration: the coin flip `randint(0, 3) % 2 == 0`, the
`SPOP` draw, and - only consumed when a discover session runs - the
handshake result and the `get_cached_peers` outcome.  `utils.ip_to_network`
is not part of this file's source; it is carried as an opaque parameter
`ipNet` mapping an address and the configured length to the CIDR string used
in the `crawl:cidr:<cidr>` key. -/

/-- The session dispatched at the end of a `task` iteration
(crawl.py:428-431). -/
inductive SessAct
  | discover (e : Endpoint)
  | mempoolAsk (e : Endpoint)
deriving DecidableEq, Repr

/-- Endpoint of a session action. -/
def actEp : SessAct → Endpoint
  | SessAct.discover e => e
  | SessAct.mempoolAsk e => e

/-- External inputs of one `task` iteration. -/
structure TaskInput where
  coin : Bool
  idx : Nat
  hs : Option VersionMsg
  peersRes : Option (List Endpoint)

/-- Static parameters of the worker loop: the configuration and the external
`ip_to_network` helper. -/
structure Pm where
  conf : Conf
  ipNet : String → Nat → String

/-- The dequeue of one iteration (crawl.py:392-400).  In mempool-ask mode:
`LPOP mempool_pending`, and if it yielded a node, `LPUSH` it back -
crawl.py:398 pushes the popped element back onto the head (the comment
claims the last place); if the list was empty, fall back to `SPOP pending`.
In discover mode: `SPOP pending`. -/
def pyDequeue (mode : Bool) (idx : Nat) (s : RS) : Option Endpoint × RS :=
  if mode then
    match pyLpop s.mempool with
    | (none, _) =>
      let r := spopAt s.pending idx
      (r.1, { s with pending := r.2 })
    | (some x, rest) => (some x, { s with mempool := pyLpush rest x })
  else
    let r := spopAt s.pending idx
    (r.1, { s with pending := r.2 })

/-- The session kind for the dispatch (crawl.py:428-431). -/
def mkAct (mode : Bool) (node : Endpoint) : SessAct :=
  if mode then SessAct.mempoolAsk node else SessAct.discover node

/-- The CIDR rate-limit block (crawl.py:420-426): for an IPv6 candidate with
a configured length below 128, increment the pass-scoped counter for its
network first, then skip when the post-increment value exceeds the cap. -/
def admitCidr (P : Pm) (mode : Bool) (node : Endpoint) (s : RS) :
    RS × Option SessAct :=
  if pyContainsChar node.address ':' && decide (P.conf.ipv6_plen < 128) then
    let c := P.ipNet node.address P.conf.ipv6_plen
    let n := cidrGet s.cidr c + 1
    let s2 : RS := { s with cidr := cidrSet s.cidr c n }
    if P.conf.nodes_per_plen < n then (s2, none)
    else (s2, some (mkAct mode node))
  else (s, some (mkAct mode node))

/-- One iteration of `task` (crawl.py:383-431) up to the dispatch: mode
draw, dequeue, IPv6/onion gates, claim-key check (discover mode only), CIDR
rate limit.  Returns the state after the iteration's own store mutations and
the session to dispatch (`none`: sleep or skip). -/
def taskIter (P : Pm) (inp : TaskInput) (s : RS) : RS × Option SessAct :=
  let mode := decide (P.conf.max_nodes ≤ s.up.length) || inp.coin
  let d := pyDequeue mode inp.idx s
  match d.1 with
  | none => (d.2, none)
  | some node =>
    if pyContainsChar node.address ':' && !P.conf.ipv6 then (d.2, none)
    else if pyEndsWith node.address ".onion" && !P.conf.onion then (d.2, none)
    else if d.2.nodeKeys.contains (nodeKeyStr node) && !mode then (d.2, none)
    else admitCidr P mode node d.2

/-- Apply the dispatched session's store effects: a discover session runs
`connect`; a mempool-ask session writes nothing. -/
def applySess (inp : TaskInput) (s : RS) : Option SessAct → RS
  | some (SessAct.discover e) => connect e inp.hs inp.peersRes s
  | _ => s

/-- One full worker step: iteration plus the dispatched session's effects. -/
def taskStep (P : Pm) (inp : TaskInput) (s : RS) : RS × Option SessAct :=
  let r := taskIter P inp s
  (applySess inp r.1 r.2, r.2)

/-- A serialized run of worker steps, collecting the dispatched sessions. -/
def taskRun (P : Pm) : List TaskInput → RS → RS × List SessAct
  | [], s => (s, [])
  | i :: is, s =>
    let r := taskStep P i s
    let rest := taskRun P is r.1
    (rest.1, r.2.toList ++ rest.2)

/-- States reachable from `s` by worker steps only - i.e. within a single
pass (no pass boundary). -/
inductive PassReach (P : Pm) : RS → RS → Prop
  | refl (s : RS) : PassReach P s s
  | worker (s t : RS) (inp : TaskInput) :
      PassReach P s t → PassReach P s (taskStep P inp t).1

/-- States reachable from `s` by worker steps and pass boundaries: a `cron`
worker observing an empty pending set runs `restart`. -/
inductive Reachable (P : Pm) (lib : IpLib)
    (v4nets v6nets : Option (List (Nat × Nat))) : RS → RS → Prop
  | refl (s : RS) : Reachable P lib v4nets v6nets s s
  | worker (s t : RS) (inp : TaskInput) :
      Reachable P lib v4nets v6nets s t →
      Reachable P lib v4nets v6nets s (taskStep P inp t).1
  | boundary (s t u : RS) (checked : List Endpoint) :
      Reachable P lib v4nets v6nets s t → t.pending = [] →
      restartState P.conf lib v4nets v6nets checked t = some u →
      Reachable P lib v4nets v6nets s u

/-- Predicate for counting sessions of a given IPv6 network: the session's
endpoint is an IPv6 address whose network under the configured length is
`p`. -/
def inPfx (P : Pm) (p : String) (a : SessAct) : Bool :=
  pyContainsChar (actEp a).address ':' &&
    (P.ipNet (actEp a).address P.conf.ipv6_plen == p)

/-- Number of dispatched sessions for network `p` in a list of actions. -/
def countPfx (P : Pm) (p : String) (acts : List SessAct) : Nat :=
  acts.countP (inPfx P p)

/-! ## Pass controller (`cron`, crawl.py:349-375)

One iteration of the cron loop.  `int(time.time())` readings inside the
snapshot-delay wait loop are modelled by a clock stream `clock : Nat → Int`
indexed by successive readings; `fuel` bounds how many loop tests are
modelled (the Python loop is unbounded). -/

/-- The pass-controller state the loop carries: the wall-clock pass start. -/
structure CronState where
  start : Int
deriving DecidableEq, Repr

/-- Outcome of one cron iteration. -/
inductive CronOut
  | idle
  | blocked
  | boundary (runAt : Int) (newStart : Int)
deriving DecidableEq, Repr

/-- The snapshot-delay wait loop (crawl.py:370-371): spin while
`int(time.time()) - start < snapshot_delay`.  Returns the reading index at
which the loop exits, or `none` when `fuel` readings were insufficient. -/
def cronWait (delay start : Int) (clock : Nat → Int) :
    Nat → Nat → Option Nat
  | 0, _ => none
  | fuel + 1, i =>
    if clock i - start < delay then cronWait delay start clock fuel (i + 1)
    else some i

/-- One iteration of the `cron` loop body (crawl.py:358-375).  When the
pending count is zero: `run_state := starting`, elapsed recorded, `restart`,
wait out the snapshot delay, reset `start` from a fresh reading, then
`run_state := running` (`CronOut.boundary runAt newStart` with `runAt` the
reading that released the wait).  Otherwise nothing but the report. -/
def cronIter (delay : Int) (pending : Nat) (clock : Nat → Int) (fuel : Nat)
    (s : CronState) : CronState × CronOut :=
  if pending = 0 then
    match cronWait delay s.start clock fuel 0 with
    | none => (s, CronOut.blocked)
    | some j => (⟨clock (j + 1)⟩, CronOut.boundary (clock j) (clock (j + 1)))
  else (s, CronOut.idle)

/-! ## Concrete instances used by the closed theorems below -/

/-- A small configuration with mempool-ask mode always on
(`max_nodes = 0`), IPv6 enabled, a /32 network limit with cap 1. -/
def confA : Conf :=
  { port := 8333, socket_timeout := 1, max_age := 1000, peers_per_node := 10,
    max_nodes := 0, ipv6 := true, onion := false, ipv6_plen := 32,
    nodes_per_plen := 1, include_checked := false, snapshot_delay := 30 }

/-- A small configuration for discover-mode runs: `max_nodes` high, IPv6 and
onion disabled, no CIDR limit (`ipv6_plen = 128`). -/
def confB : Conf :=
  { port := 8333, socket_timeout := 1, max_age := 1000, peers_per_node := 10,
    max_nodes := 100, ipv6 := false, onion := false, ipv6_plen := 128,
    nodes_per_plen := 50, include_checked := false, snapshot_delay := 30 }

/-- Stdlib model for the C3 inputs: `1.2.3.4` parses as a public IPv4
address (this is the real behaviour of `ipaddress.ip_address` and
`socket.inet_pton` on it); everything else fails to parse, as
`ipaddress.ip_address` does on `999.9.9.9` (it raises `ValueError`). -/
def libEx : IpLib :=
  { ip_address := fun a => if a = "1.2.3.4" then some false else none,
    inet_pton := fun _ a => if a = "1.2.3.4" then some 16909060 else none }

/-- Stdlib model for the C8 run: every address in play parses as a public
address (the concrete addresses used are public IPv4 strings). -/
def lib8 : IpLib :=
  { ip_address := fun _ => some false,
    inet_pton := fun _ _ => some 0 }

/-- Worker parameters for the mempool-mode CIDR run of C7; the network of an
IPv6 address is represented by the address itself (the run only ever asks
for the network of one fixed address, so any `ip_to_network` model agrees on
it). -/
def pm7 : Pm := ⟨confA, fun a _ => a⟩

/-- Worker parameters for the discover-mode run of C4. -/
def pmB : Pm := ⟨confB, fun a _ => a⟩

/-- Candidate endpoints for the discover-mode run. -/
def epA : Endpoint := ⟨"1.2.3.4", 8333, 1⟩

/-- Second candidate, later re-learned as a peer while in `up`. -/
def epB : Endpoint := ⟨"5.6.7.8", 8333, 1⟩

/-- IPv6 endpoint sitting in `mempool_pending` for the C7 run. -/
def epV6 : Endpoint := ⟨"2001:db8::1", 8333, 9⟩

/-- Handshake answer matching the candidate's services. -/
def vmSame : VersionMsg := ⟨70016, "ua", 1, 800000⟩

/-- Initial state of the C4 run: two seeds pending, nothing else. -/
def init4 : RS := { emptyRS with pending := [epA, epB] }

/-- First C4 step: worker pops `epB` (draw 1) and completes a discover
session with no peers learned. -/
def inp4a : TaskInput := ⟨false, 1, some vmSame, some []⟩

/-- Second C4 step: worker pops `epA` (draw 0); its peer reply re-learns
`epB`, which is in `up` at that point. -/
def inp4b : TaskInput := ⟨false, 0, some vmSame, some [epB]⟩

/-- The state after both C4 steps. -/
def sBad4 : RS := (taskStep pmB inp4b (taskStep pmB inp4a init4).1).1

/-- Initial state of the C7 run: one IPv6 endpoint in `mempool_pending`. -/
def init7 : RS := { emptyRS with mempool := [epV6] }

/-- A mempool-mode iteration (the draw and session inputs are unused on the
mempool path). -/
def inp7 : TaskInput := ⟨true, 0, none, none⟩

/-- The state after three mempool-mode iterations on the same /32. -/
def sBad7 : RS :=
  (taskStep pm7 inp7 (taskStep pm7 inp7 (taskStep pm7 inp7 init7).1).1).1

/-- The C8 poll stream: the single poll returns a batch holding a
self-advertisement (`count = 1`) and a two-entry message. -/
def polls8 : Nat → Option (List AddrMsg) := fun _ =>
  some
    [⟨1, some [⟨1000, "7.7.7.7", "", "", 8333, 1⟩]⟩,
     ⟨2, some [⟨1000, "8.8.8.8", "", "", 8333, 1⟩,
               ⟨1000, "9.9.9.9", "", "", 8333, 1⟩]⟩]

/-- A poll stream in which every message is a self-advertisement. -/
def pollsOne : Nat → Option (List AddrMsg) := fun _ =>
  some [⟨1, some [⟨1000, "7.7.7.7", "", "", 8333, 1⟩]⟩]

/-- Reachable-set members for the C5 run, as raw `up` strings. -/
def nodes5 : List String := ["node:1.2.3.4-8333-9", "node:5.6.7.8-8333-9"]

/-- Height store for the C5 run: only the first endpoint has a height. -/
def store5 : String → Option Int := fun k =>
  if k = "height:1.2.3.4-8333-9" then some 800000 else none

/-- Snapshot rows the C5 run must produce. -/
def js5 : List JEntry :=
  [⟨"1.2.3.4", 8333, 9, 800000⟩, ⟨"5.6.7.8", 8333, 9, 0⟩]

/-! ## Helper lemmas -/

theorem mem_pyAdd_self {α : Type} [DecidableEq α] (l : List α) (x : α) :
    x ∈ pyAdd l x := by
  unfold pyAdd
  split
  · assumption
  · exact List.mem_append_right _ (List.mem_singleton.mpr rfl)

theorem storeGet_storeSet_self {α : Type} (l : List (String × α)) (k : String)
    (v : α) : storeGet (storeSet l k v) k = some v := by
  simp [storeGet, storeSet, List.find?_cons_of_pos]

theorem not_mem_of_contains_false {α : Type} [BEq α] [LawfulBEq α]
    {l : List α} {k : α} (h : l.contains k = false) : k ∉ l := by
  intro hm
  have ht : l.contains k = true := by
    simpa [List.contains] using List.elem_iff.mpr hm
  rw [ht] at h
  cases h

theorem pyDequeue_cidr (m : Bool) (i : Nat) (s : RS) :
    ((pyDequeue m i s).2).cidr = s.cidr := by
  unfold pyDequeue
  cases m with
  | false => rfl
  | true =>
    cases hmp : s.mempool with
    | nil => simp [pyLpop, hmp]
    | cons x r => simp [pyLpop, hmp]

theorem pyDequeue_nodeKeys (m : Bool) (i : Nat) (s : RS) :
    ((pyDequeue m i s).2).nodeKeys = s.nodeKeys := by
  unfold pyDequeue
  cases m with
  | false => rfl
  | true =>
    cases hmp : s.mempool with
    | nil => simp [pyLpop, hmp]
    | cons x r => simp [pyLpop, hmp]

theorem connect_cidr (e : Endpoint) (hs : Option VersionMsg)
    (pr : Option (List Endpoint)) (s : RS) : (connect e hs pr s).cidr = s.cidr := by
  unfold connect
  cases hs with
  | none => rfl
  | some vm => cases pr <;> rfl

theorem applySess_cidr (inp : TaskInput) (s : RS) (a : Option SessAct) :
    (applySess inp s a).cidr = s.cidr := by
  cases a with
  | none => rfl
  | some act =>
    cases act with
    | discover e => exact connect_cidr e inp.hs inp.peersRes s
    | mempoolAsk e => rfl

theorem cidrGet_cidrSet_self (l : List (String × Nat)) (k : String) (v : Nat) :
    cidrGet (cidrSet l k v) k = v := by
  simp [cidrGet, cidrSet, List.find?_cons_of_pos]

theorem cidrGet_cidrSet_ne (l : List (String × Nat)) (k p : String) (v : Nat)
    (h : p ≠ k) : cidrGet (cidrSet l k v) p = cidrGet l p := by
  have hk : (k == p) = false := by
    exact beq_eq_false_iff_ne.mpr (fun hkp => h hkp.symm)
  unfold cidrSet cidrGet
  rw [List.find?_cons_of_neg _ (by simpa using hk)]
  induction l with
  | nil => rfl
  | cons kv rest ih =>
    by_cases hkv : kv.1 = k
    · have hne : (kv.1 == p) = false := by
        rw [hkv]; simpa using hk
      rw [List.filter_cons_of_neg (by simp [hkv]),
        List.find?_cons_of_neg _ (by simpa using hne)]
      exact ih
    · rw [List.filter_cons_of_pos (by simp [hkv])]
      by_cases hp : kv.1 = p
      · rw [List.find?_cons_of_pos _ (by simp [hp]),
          List.find?_cons_of_pos _ (by simp [hp])]
      · rw [List.find?_cons_of_neg _ (by simp [hp]),
          List.find?_cons_of_neg _ (by simp [hp])]
        exact ih

theorem actEp_mkAct (mode : Bool) (node : Endpoint) :
    actEp (mkAct mode node) = node := by
  cases mode <;> rfl

/-! ## Claim C1 -/

/-- C1 (corrected): in a discover session whose handshake succeeds with
advertised services different from the candidate's, `connect` writes the
height key under the rewritten triple, sets the rewritten triple's claim
key, adds the rewritten triple to `up` - but pushes the ORIGINAL candidate
triple onto `mempool_pending` (and onto its head, by `LPUSH`), because
`key_tuple` (crawl.py:171) is never rewritten. -/
theorem c1_connect_services_rewrite (e : Endpoint) (vm : VersionMsg)
    (peers : List Endpoint) (s : RS) (hneq : vm.services ≠ e.services) :
    storeGet (connect e (some vm) (some peers) s).heights
        (heightKeyStr e.address e.port vm.services) = some vm.height ∧
    nodeKeyStr { e with services := vm.services } ∈
      (connect e (some vm) (some peers) s).nodeKeys ∧
    ({ e with services := vm.services } : Endpoint) ∈
      (connect e (some vm) (some peers) s).up ∧
    (connect e (some vm) (some peers) s).mempool = e :: s.mempool := by
  simp only [connect, pyLpush]
  rw [if_pos hneq]
  exact ⟨storeGet_storeSet_self _ _ _, mem_pyAdd_self _ _,
    mem_pyAdd_self _ _, trivial⟩

/-- Witness for C1's theorem at the candidate `(1.2.3.4, 8333, 1)` with
advertised services 9 (scenario D of the spec). -/
theorem c1_witness :
    storeGet (connect epA (some ⟨70016, "ua", 9, 800000⟩) (some []) emptyRS).heights
        (heightKeyStr "1.2.3.4" 8333 9) = some 800000 ∧
    nodeKeyStr ⟨"1.2.3.4", 8333, 9⟩ ∈
      (connect epA (some ⟨70016, "ua", 9, 800000⟩) (some []) emptyRS).nodeKeys ∧
    (⟨"1.2.3.4", 8333, 9⟩ : Endpoint) ∈
      (connect epA (some ⟨70016, "ua", 9, 800000⟩) (some []) emptyRS).up ∧
    (connect epA (some ⟨70016, "ua", 9, 800000⟩) (some []) emptyRS).mempool =
      epA :: emptyRS.mempool :=
  c1_connect_services_rewrite epA ⟨70016, "ua", 9, 800000⟩ [] emptyRS (by decide)

/-- Counterexample to C1 as stated: after the same session,
`mempool_pending` holds only the original candidate `(1.2.3.4, 8333, 1)` -
the rewritten endpoint `(1.2.3.4, 8333, 9)` was NOT pushed. -/
theorem c1_counterexample :
    (connect epA (some ⟨70016, "ua", 9, 800000⟩) (some []) emptyRS).mempool =
      [epA] ∧
    (⟨"1.2.3.4", 8333, 9⟩ : Endpoint) ∉
      (connect epA (some ⟨70016, "ua", 9, 800000⟩) (some []) emptyRS).mempool := by
  decide

/-! ## Claim C2 -/

/-- C2 (code bug evidence): in mempool mode with `mempool_pending = [A, B]`,
the dequeue yields `A` and leaves the list `[A, B]` - the popped head is
`LPUSH`ed back onto the HEAD (crawl.py:398), although the source's own
comment says "put it back on the last place" and the claim says the element
is re-appended to the tail (which would leave `[B, A]`). -/
theorem c2_mempool_dequeue_behavior :
    pyDequeue true 0 { emptyRS with mempool := [epA, epB] } =
      (some epA, { emptyRS with mempool := [epA, epB] }) ∧
    pyDequeue true 0 { emptyRS with pending := [epA] } = (some epA, emptyRS) ∧
    pyDequeue false 0 { emptyRS with pending := [epA] } = (some epA, emptyRS) := by
  decide

/-! ## Claim C6 -/

/-- C6 (confirmed): whenever `get_peers` returns (rather than raising), its
result holds at most `peers_per_node` peers and at most 1000 peers: a
collected set larger than 1000 is rejected outright, anything else is
truncated to `peers_per_node`. -/
theorem c6_get_peers_bounded (conf : Conf) (lib : IpLib)
    (v4nets v6nets : Option (List (Nat × Nat))) (now : Int) (sendOk : Bool)
    (polls : Nat → Option (List AddrMsg)) (res : List Peer4)
    (h : get_peers conf lib v4nets v6nets now sendOk polls = some res) :
    res.length ≤ conf.peers_per_node ∧ res.length ≤ 1000 := by
  unfold get_peers at h
  rcases hcm : collectMsgs conf lib v4nets v6nets now
      (getaddr conf.socket_timeout sendOk polls) [] with _ | peers
  · rw [hcm] at h; cases h
  · rw [hcm] at h
    have hres : res =
        (if 1000 < peers.length then [] else peers).take conf.peers_per_node :=
      (Option.some.inj h).symm
    subst hres
    constructor
    · exact List.length_take_le _ _
    · by_cases hlen : 1000 < peers.length
      · simp [hlen]
      · rw [if_neg hlen]
        exact le_trans (List.length_take_le' _ _) (Nat.le_of_not_lt hlen)

/-- Witness for C6's theorem on a concrete (empty) run. -/
theorem c6_witness :
    ([] : List Peer4).length ≤ confB.peers_per_node ∧
    ([] : List Peer4).length ≤ 1000 :=
  c6_get_peers_bounded confB lib8 none none 0 false (fun _ => none) []
    (by decide)

/-! ## Claim C9 -/

/-- C9 (code bug evidence): a mempool-ask session never closes its
connection - no exit path of `ask_mempool` (crawl.py:233-271) contains a
`conn.close()` call.  (On the discover side, `connect` also skips its
`conn.close()` when `get_cached_peers` raises after a successful
handshake.) -/
theorem c9_ask_mempool_never_closes :
    (∀ out : MempoolOutcome, CEvent.connClose ∉ askMempoolTrace out) ∧
    (∀ vm : VersionMsg,
      CEvent.connClose ∉ connectTrace (SessOutcome.handshakeOk vm) none) := by
  constructor
  · intro out; cases out <;> simp [askMempoolTrace]
  · intro vm; simp [connectTrace]

/-! ## Claim C10 -/

/-- Releasing reading of the snapshot-delay wait loop is at least
`snapshot_delay` past the pass start. -/
theorem cronWait_release (delay start : Int) (clock : Nat → Int) :
    ∀ (fuel i j : Nat), cronWait delay start clock fuel i = some j →
      start + delay ≤ clock j := by
  intro fuel
  induction fuel with
  | zero => intro i j h; cases h
  | succ n ih =>
    intro i j h
    unfold cronWait at h
    split at h
    · exact ih (i + 1) j h
    · rename_i hge
      cases h
      omega

/-- C10 (confirmed): in the pass-controller loop, the `running → starting`
transition happens only in an iteration that observed `|pending| = 0` (an
iteration with pending work changes nothing), and `running` is set again
only once a clock reading at least `snapshot_delay` past the pass start has
been observed. -/
theorem c10_cron_state_machine (delay : Int) (pending : Nat)
    (clock : Nat → Int) (fuel : Nat) (s : CronState) :
    (∀ t ns, (cronIter delay pending clock fuel s).2 = CronOut.boundary t ns →
      pending = 0 ∧ s.start + delay ≤ t) ∧
    (pending ≠ 0 → cronIter delay pending clock fuel s = (s, CronOut.idle)) := by
  constructor
  · intro t ns h
    unfold cronIter at h
    split at h
    · rcases hw : cronWait delay s.start clock fuel 0 with _ | j
      · rw [hw] at h; cases h
      · rw [hw] at h
        refine ⟨by assumption, ?_⟩
        cases h
        exact cronWait_release delay s.start clock fuel 0 j hw
    · cases h
  · intro hne
    unfold cronIter
    rw [if_neg hne]

/-- Witness for C10's theorem: with `snapshot_delay = 2` and the identity
clock, the boundary completes at reading 2 ≥ start + delay. -/
theorem c10_witness : (0 : Nat) = 0 ∧ (0 : Int) + 2 ≤ 2 :=
  (c10_cron_state_machine 2 0 (fun i => (i : Int)) 5 ⟨0⟩).1 2 3 (by decide)

/-! ## Claim C3 -/

/-- C3 (amended): `is_excluded` evaluates first-match-wins: an onion
address is included; an address that does not parse as an IP address at all
raises `ValueError` (result `none`) instead of returning a boolean; a
private address is excluded; if EITHER family's compiled rule list is not
yet loaded the address is excluded (fail-closed, regardless of the
address's own family); an address whose family-specific `inet_pton` parse
fails is excluded; otherwise the address is excluded iff some rule of its
family matches `(int(address) & netmask) == network_base`. -/
theorem c3_is_excluded_rules (lib : IpLib)
    (v4nets v6nets : Option (List (Nat × Nat))) (a : String) :
    (pyEndsWith a ".onion" = true →
      is_excluded lib v4nets v6nets a = some false) ∧
    (pyEndsWith a ".onion" = false → lib.ip_address a = none →
      is_excluded lib v4nets v6nets a = none) ∧
    (pyEndsWith a ".onion" = false → lib.ip_address a = some true →
      is_excluded lib v4nets v6nets a = some true) ∧
    (pyEndsWith a ".onion" = false → lib.ip_address a = some false →
      (v4nets = none ∨ v6nets = none) →
      is_excluded lib v4nets v6nets a = some true) ∧
    (pyEndsWith a ".onion" = false → lib.ip_address a = some false →
      v4nets.isSome = true → v6nets.isSome = true →
      lib.inet_pton (famOf a) a = none →
      is_excluded lib v4nets v6nets a = some true) ∧
    (∀ nets addr, pyEndsWith a ".onion" = false →
      lib.ip_address a = some false →
      v4nets.isSome = true → v6nets.isSome = true →
      netsFor (famOf a) v4nets v6nets = some nets →
      lib.inet_pton (famOf a) a = some addr →
      is_excluded lib v4nets v6nets a =
        some (nets.any (fun net => addr &&& net.2 == net.1))) := by
  refine ⟨?_, ?_, ?_, ?_, ?_, ?_⟩
  · intro h1
    simp [is_excluded, h1]
  · intro h1 h2
    simp [is_excluded, h1, h2]
  · intro h1 h2
    simp [is_excluded, h1, h2]
  · intro h1 h2 h3
    rcases h3 with h3 | h3 <;> simp [is_excluded, h1, h2, h3]
  · intro h1 h2 h3 h4 h5
    simp [is_excluded, h1, h2, h5, Option.isNone_iff_eq_none,
      Option.isSome_iff_ne_none.mp h3, Option.isSome_iff_ne_none.mp h4]
  · intro nets addr h1 h2 h3 h4 h5 h6
    simp [is_excluded, h1, h2, h5, h6, Option.isNone_iff_eq_none,
      Option.isSome_iff_ne_none.mp h3, Option.isSome_iff_ne_none.mp h4]

/-- Witness for C3's theorem: the public address `1.2.3.4` with both rule
lists loaded and empty is not excluded. -/
theorem c3_witness : is_excluded libEx (some []) (some []) "1.2.3.4" = some false := by
  have h := (c3_is_excluded_rules libEx (some []) (some []) "1.2.3.4").2.2.2.2.2
  exact h [] 16909060 (by decide) (by decide) (by decide) (by decide)
    (by decide) (by decide)

/-- Counterexample to C3 as stated (the claim rules as a total boolean
function agreeing with the source): with the IPv4 list loaded (empty) and
the IPv6 list not yet loaded, the source excludes the IPv4 address
`1.2.3.4` (it checks BOTH lists), while the claim's rules - family list
loaded, parses, no rule matches - answer "not excluded".  (A second
divergence, covered by the amended theorem: on a string that is no IP
address at all the source raises instead of returning the claim's
"excluded".) -/
theorem c3_counterexample :
    ¬ (∀ (lib : IpLib) (v4nets v6nets : Option (List (Nat × Nat)))
        (a : String),
        is_excluded lib v4nets v6nets a =
          some (is_excluded_claim lib v4nets v6nets a)) := by
  intro h
  have h1 := h libEx (some []) none "1.2.3.4"
  rw [show is_excluded libEx (some []) none "1.2.3.4" = some true from by decide,
    show is_excluded_claim libEx (some []) none "1.2.3.4" = false from by decide]
    at h1
  cases h1

/-! ## Claim C4 -/

/-- C4 (amended): the code does not keep `pending` disjoint from the
reachable set or the claimed keys - instead the protection sits at dequeue
time: a `task` iteration only dispatches a discover session for an endpoint
whose `node:*` claim key is not currently set (crawl.py:417). -/
theorem c4_discover_requires_unclaimed (P : Pm) (inp : TaskInput) (s s1 : RS)
    (e : Endpoint)
    (h : taskIter P inp s = (s1, some (SessAct.discover e))) :
    nodeKeyStr e ∉ s.nodeKeys := by
  simp only [taskIter] at h
  rcases hd : pyDequeue (decide (P.conf.max_nodes ≤ s.up.length) || inp.coin)
      inp.idx s with ⟨node?, sd⟩
  rw [hd] at h
  cases node? with
  | none => simp at h
  | some node =>
    simp only at h
    split at h
    · simp at h
    · split at h
      · simp at h
      · split at h
        · simp at h
        · rename_i hclaim
          -- the dispatch came out of the CIDR block
          have hmode :
              mkAct (decide (P.conf.max_nodes ≤ s.up.length) || inp.coin) node =
                SessAct.discover e → node = e ∧
                (decide (P.conf.max_nodes ≤ s.up.length) || inp.coin) = false := by
            intro hmk
            unfold mkAct at hmk
            split at hmk
            · cases hmk
            · rename_i hmf
              exact ⟨SessAct.discover.inj hmk,
                Bool.not_eq_true _ ▸ eq_false_of_ne_true hmf⟩
          simp only [admitCidr] at h
          split at h
          · split at h
            · simp at h
            · have := hmode (Option.some.inj (congrArg Prod.snd h))
              rcases this with ⟨hne, hmf⟩
              subst hne
              rw [hmf] at hclaim
              simp only [Bool.not_false, Bool.and_true] at hclaim
              have hcf : sd.nodeKeys.contains (nodeKeyStr node) = false := by
                exact eq_false_of_ne_true hclaim
              have := not_mem_of_contains_false hcf
              rwa [show sd = (pyDequeue (decide (P.conf.max_nodes ≤ s.up.length)
                  || inp.coin) inp.idx s).2 from (congrArg Prod.snd hd).symm,
                pyDequeue_nodeKeys] at this
          · have := hmode (Option.some.inj (congrArg Prod.snd h))
            rcases this with ⟨hne, hmf⟩
            subst hne
            rw [hmf] at hclaim
            simp only [Bool.not_false, Bool.and_true] at hclaim
            have hcf : sd.nodeKeys.contains (nodeKeyStr node) = false :=
              eq_false_of_ne_true hclaim
            have := not_mem_of_contains_false hcf
            rwa [show sd = (pyDequeue (decide (P.conf.max_nodes ≤ s.up.length)
                || inp.coin) inp.idx s).2 from (congrArg Prod.snd hd).symm,
              pyDequeue_nodeKeys] at this

/-- Witness for C4's theorem: the first step of the concrete discover run
dispatches a discover session for `epB`, so `epB`'s claim key is absent in
the initial state. -/
theorem c4_witness : nodeKeyStr epB ∉ init4.nodeKeys :=
  c4_discover_requires_unclaimed pmB inp4a init4 (taskIter pmB inp4a init4).1
    epB (by decide)

/-- Counterexample to C4 as stated: a reachable state in which `epB` sits in
`pending` while it is also a member of `up` with its claim key live - a
worker discovered `epB`, then a second worker's discover session on `epA`
re-learned `epB` from the peer reply and `SADD`ed it back into `pending`
(crawl.py:223-225 filter peers against neither `up` nor `node:*`). -/
theorem c4_counterexample :
    Reachable pmB libEx (some []) (some []) init4 sBad4 ∧
    epB ∈ sBad4.pending ∧ epB ∈ sBad4.up ∧
    nodeKeyStr epB ∈ sBad4.nodeKeys := by
  refine ⟨?_, by decide, by decide, by decide⟩
  show Reachable pmB libEx (some []) (some []) init4
      (taskStep pmB inp4b (taskStep pmB inp4a init4).1).1
  exact Reachable.worker _ _ inp4b (Reachable.worker _ _ inp4a
    (Reachable.refl _))

/-! ## Claim C5 -/

/-- Shape of a successfully built snapshot array: one row per `up` member,
in order, each row being `entryOf` of its member. -/
theorem buildJson_spec (store : String → Option Int) :
    ∀ (nodes : List String) (js : List JEntry),
      buildJson store nodes = some js →
      js.length = nodes.length ∧
      ∀ i, js.get? i = (nodes.get? i).bind (entryOf store) := by
  intro nodes
  induction nodes with
  | nil =>
    intro js h
    cases h
    exact ⟨rfl, fun i => by simp⟩
  | cons k ks ih =>
    intro js h
    simp only [buildJson] at h
    rcases he : entryOf store k with _ | e
    · rw [he] at h; cases h
    · rw [he] at h
      rcases Option.map_eq_some'.mp h with ⟨js', hjs', rfl⟩
      rcases ih js' hjs' with ⟨hlen, hget⟩
      refine ⟨by simp [hlen], ?_⟩
      intro i
      cases i with
      | zero => simp [he]
      | succ n => simpa using hget n

/-- C5 (amended): when the reachable set read at the pass boundary is
non-empty and every member parses, the snapshot file is written and is
exactly the built array: one `[address, port, services, height]` row per
member, in order (row i is `entryOf` of member i, which records height 0
when the `height:*` key is missing), and `dump` returns the most common
height of the rows.  When the reachable set is empty, no file is written
and 0 is returned (see the counterexample). -/
theorem c5_dump_snapshot (store : String → Option Int) (nodes : List String)
    (js : List JEntry) (hb : buildJson store nodes = some js)
    (hne : js ≠ []) :
    dump store nodes =
      some (some js, mostCommon (js.map (fun e => e.height))) ∧
    js.length = nodes.length ∧
    ∀ i, js.get? i = (nodes.get? i).bind (entryOf store) := by
  rcases buildJson_spec store nodes js hb with ⟨hlen, hget⟩
  refine ⟨?_, hlen, hget⟩
  unfold dump
  rw [hb]
  have hie : js.isEmpty = false := by simpa [List.isEmpty_iff] using hne
  simp [hie]

/-- Witness for C5's theorem on two reachable members, the second of which
has no `height:*` key (recorded as height 0). -/
theorem c5_witness :
    dump store5 nodes5 = some (some js5, 800000) ∧
    js5.length = nodes5.length ∧
    ∀ i, js5.get? i = (nodes5.get? i).bind (entryOf store5) := by
  have h := c5_dump_snapshot store5 nodes5 js5 (by decide) (by decide)
  have h1 := h.1
  rw [show mostCommon (js5.map (fun e => e.height)) = 800000 from by decide]
    at h1
  exact ⟨h1, h.2.1, h.2.2⟩

/-- Counterexample to C5 as stated: at a pass boundary whose reachable set
is empty, no snapshot file is written at all (crawl.py:293-295 return 0
before the write), so there is no pass-boundary guarantee of a written
array with `|reachable|` entries. -/
theorem c5_counterexample :
    ¬ (∀ (store : String → Option Int) (nodes : List String)
        (js : List JEntry), buildJson store nodes = some js →
        ∃ arr h, dump store nodes = some (some arr, h) ∧
          arr.length = nodes.length) := by
  intro hcl
  obtain ⟨arr, h, heq, _⟩ := hcl (fun _ => none) [] [] rfl
  rw [show dump (fun _ => none) [] = some (none, 0) from rfl] at heq
  simp at heq

/-! ## Claim C8 -/

/-- Unfolding equation of the poll loop on a failed poll. -/
theorem getaddrLoop_succ_none (polls : Nat → Option (List AddrMsg))
    (n i : Nat) (hp : polls i = none) : getaddrLoop polls (n + 1) i = [] := by
  unfold getaddrLoop
  rw [hp]

/-- Unfolding equation of the poll loop on a successful poll. -/
theorem getaddrLoop_succ_some (polls : Nat → Option (List AddrMsg))
    (n i : Nat) (msgs : List AddrMsg) (hp : polls i = some msgs) :
    getaddrLoop polls (n + 1) i =
      if (!msgs.isEmpty) && msgs.any (fun m => decide (1 < m.count)) then msgs
      else getaddrLoop polls n (i + 1) := by
  conv_lhs => unfold getaddrLoop
  rw [hp]

/-- Acceptance behaviour of the `getaddr` poll loop: a non-empty result is a
batch containing at least one message with `count > 1`; if every polled
message has `count ≤ 1`, the loop returns nothing. -/
theorem getaddrLoop_spec (polls : Nat → Option (List AddrMsg)) :
    ∀ (fuel i : Nat),
      (getaddrLoop polls fuel i ≠ [] →
        (getaddrLoop polls fuel i).any (fun m => decide (1 < m.count)) = true) ∧
      ((∀ j msgs, polls j = some msgs → ∀ m ∈ msgs, m.count ≤ 1) →
        getaddrLoop polls fuel i = []) := by
  intro fuel
  induction fuel with
  | zero => intro i; exact ⟨fun h => absurd rfl h, fun _ => rfl⟩
  | succ n ih =>
    intro i
    rcases hp : polls i with _ | msgs
    · rw [getaddrLoop_succ_none polls n i hp]
      exact ⟨fun h => absurd rfl h, fun _ => rfl⟩
    · rw [getaddrLoop_succ_some polls n i msgs hp]
      by_cases hacc :
          ((!msgs.isEmpty) && msgs.any (fun m => decide (1 < m.count))) = true
      · rw [if_pos hacc]
        refine ⟨fun _ => ((Bool.and_eq_true _ _).mp hacc).2, ?_⟩
        intro hall
        rcases List.any_eq_true.mp ((Bool.and_eq_true _ _).mp hacc).2 with
          ⟨m, hm, hcnt⟩
        have hle := hall i msgs hp m hm
        have hlt : 1 < m.count := of_decide_eq_true hcnt
        omega
      · rw [if_neg hacc]
        exact ih (i + 1)

/-- C8 (amended): acceptance is per poll batch, not per message - a batch is
accepted iff it is non-empty and contains at least one message with more
than one entry; once accepted, ALL its messages (including `count == 1`
self-advertisements) contribute entries (see the counterexample); when
every polled message carries at most one entry, nothing is accepted and the
peer set receives no entries. -/
theorem c8_getaddr_batch_filter (socket_timeout : Nat) (sendOk : Bool)
    (polls : Nat → Option (List AddrMsg)) :
    (getaddr socket_timeout sendOk polls ≠ [] →
      (getaddr socket_timeout sendOk polls).any
        (fun m => decide (1 < m.count)) = true) ∧
    ((∀ j msgs, polls j = some msgs → ∀ m ∈ msgs, m.count ≤ 1) →
      getaddr socket_timeout sendOk polls = []) := by
  unfold getaddr
  cases sendOk with
  | false => exact ⟨fun h => absurd rfl h, fun _ => rfl⟩
  | true => simpa using getaddrLoop_spec polls socket_timeout 0

/-- Witness for C8's theorem: a stream of pure self-advertisements is never
accepted. -/
theorem c8_witness : getaddr 2 true pollsOne = [] := by
  refine (c8_getaddr_batch_filter 2 true pollsOne).2 ?_
  intro j msgs hj m hm
  simp only [pollsOne, Option.some.injEq] at hj
  subst hj
  simp only [List.mem_singleton] at hm
  subst hm
  decide

/-- Counterexample to C8 as stated: the poll batch of `polls8` holds a
`count = 1` message advertising `7.7.7.7` together with a two-entry
message; the batch is accepted whole and the self-advertisement's entry
`(7.7.7.7, 8333, 1, 1000)` DOES reach the collected peer set, first. -/
theorem c8_counterexample :
    get_peers confA lib8 (some []) (some []) 1000 true polls8 =
      some [⟨"7.7.7.7", 8333, 1, 1000⟩, ⟨"8.8.8.8", 8333, 1, 1000⟩,
            ⟨"9.9.9.9", 8333, 1, 1000⟩] ∧
    (⟨1, some [⟨1000, "7.7.7.7", "", "", 8333, 1⟩]⟩ : AddrMsg).count = 1 := by
  decide

/-! ## Claim C7 -/

theorem countPfx_append (P : Pm) (p : String) (l1 l2 : List SessAct) :
    countPfx P p (l1 ++ l2) = countPfx P p l1 + countPfx P p l2 := by
  simp [countPfx, List.countP_append]

/-- Effect of one `task` iteration on the counter of network `p` and on the
number of sessions dispatched for `p`: either the counter is untouched and
no `p`-session dispatched; or the counter is incremented past the cap and no
session dispatched; or the counter is incremented within the cap and exactly
one `p`-session dispatched. -/
theorem taskIter_cidr_cases (P : Pm) (p : String) (inp : TaskInput) (s : RS)
    (hplen : P.conf.ipv6_plen < 128) :
    (cidrGet (taskIter P inp s).1.cidr p = cidrGet s.cidr p ∧
      countPfx P p (taskIter P inp s).2.toList = 0) ∨
    (cidrGet (taskIter P inp s).1.cidr p = cidrGet s.cidr p + 1 ∧
      countPfx P p (taskIter P inp s).2.toList = 0 ∧
      P.conf.nodes_per_plen < cidrGet s.cidr p + 1) ∨
    (cidrGet (taskIter P inp s).1.cidr p = cidrGet s.cidr p + 1 ∧
      countPfx P p (taskIter P inp s).2.toList = 1 ∧
      cidrGet s.cidr p + 1 ≤ P.conf.nodes_per_plen) := by
  simp only [taskIter]
  split
  · left
    exact ⟨by rw [pyDequeue_cidr], by simp [countPfx]⟩
  · rename_i node heq
    split
    · left
      exact ⟨by rw [pyDequeue_cidr], by simp [countPfx]⟩
    · split
      · left
        exact ⟨by rw [pyDequeue_cidr], by simp [countPfx]⟩
      · split
        · left
          exact ⟨by rw [pyDequeue_cidr], by simp [countPfx]⟩
        · simp only [admitCidr]
          split
          · rename_i hg
            rcases (Bool.and_eq_true _ _).mp hg with ⟨hcol, _⟩
            by_cases hcp : P.ipNet node.address P.conf.ipv6_plen = p
            · rw [hcp]
              split
              · rename_i hcap
                right; left
                refine ⟨?_, by simp [countPfx], ?_⟩
                · simp [cidrGet_cidrSet_self, pyDequeue_cidr]
                · rw [pyDequeue_cidr] at hcap
                  exact hcap
              · rename_i hcap
                right; right
                refine ⟨by simp [cidrGet_cidrSet_self, pyDequeue_cidr], ?_, ?_⟩
                · simp [countPfx, List.countP_cons, inPfx, actEp_mkAct, hcol,
                    hcp]
                · rw [pyDequeue_cidr] at hcap
                  omega
            · split
              · left
                refine ⟨?_, by simp [countPfx]⟩
                rw [cidrGet_cidrSet_ne _ _ _ _ (fun hpc => hcp hpc.symm),
                  pyDequeue_cidr]
              · left
                refine ⟨?_, ?_⟩
                · rw [cidrGet_cidrSet_ne _ _ _ _ (fun hpc => hcp hpc.symm),
                    pyDequeue_cidr]
                · simp [countPfx, List.countP_cons, inPfx, actEp_mkAct, hcp]
          · rename_i hg
            have hcol : pyContainsChar node.address ':' = false := by
              rcases hb : pyContainsChar node.address ':' with _ | _
              · rfl
              · exact absurd (by simp [hb, hplen]) hg
            left
            exact ⟨by rw [pyDequeue_cidr],
              by simp [countPfx, List.countP_cons, inPfx, actEp_mkAct, hcol]⟩

/-- The session effects do not touch the counters and the dispatched action
of a full step is that of the iteration. -/
theorem taskStep_cidr (P : Pm) (inp : TaskInput) (s : RS) :
    (taskStep P inp s).1.cidr = (taskIter P inp s).1.cidr := by
  simp only [taskStep]
  exact applySess_cidr inp (taskIter P inp s).1 (taskIter P inp s).2

/-- Invariant run bound: across a serialized run of worker steps, the number
of sessions dispatched for network `p` plus the (capped) starting counter
stays within the cap. -/
theorem taskRun_cidr_bound (P : Pm) (p : String)
    (hplen : P.conf.ipv6_plen < 128) :
    ∀ (inps : List TaskInput) (s : RS),
      countPfx P p (taskRun P inps s).2 +
        min P.conf.nodes_per_plen (cidrGet s.cidr p) ≤ P.conf.nodes_per_plen := by
  intro inps
  induction inps with
  | nil =>
    intro s
    simp [taskRun, countPfx]
  | cons i is ih =>
    intro s
    simp only [taskRun]
    rw [countPfx_append]
    have hstep2 : (taskStep P i s).2 = (taskIter P i s).2 := rfl
    rw [hstep2]
    have hih := ih (taskStep P i s).1
    rw [taskStep_cidr] at hih
    rcases taskIter_cidr_cases P p i s hplen with ⟨hc, hn⟩ | ⟨hc, hn, hcap⟩ |
      ⟨hc, hn, hcap⟩ <;> rw [hc] at hih <;> rw [hn] <;> omega

/-- C7 (amended): the counter value itself only tracks pops and is not
bounded by the cap (see the counterexample), but the admission it guards is:
within a single pass (worker steps only, counters starting at zero), the
number of sessions actually dispatched for any IPv6 network never exceeds
`nodes_per_ipv6_prefix` - in this serialized model it does not even use the
one-extra race allowance. -/
theorem c7_prefix_sessions_capped (P : Pm) (inps : List TaskInput) (s : RS)
    (p : String) (hplen : P.conf.ipv6_plen < 128)
    (h0 : cidrGet s.cidr p = 0) :
    countPfx P p (taskRun P inps s).2 ≤ P.conf.nodes_per_plen := by
  have h := taskRun_cidr_bound P p hplen inps s
  rw [h0] at h
  simpa using h

/-- Witness for C7's theorem: three mempool-mode revisits of the same IPv6
endpoint dispatch at most cap = 1 sessions. -/
theorem c7_witness :
    countPfx pm7 "2001:db8::1" (taskRun pm7 [inp7, inp7, inp7] init7).2 ≤
      pm7.conf.nodes_per_plen :=
  c7_prefix_sessions_capped pm7 [inp7, inp7, inp7] init7 "2001:db8::1"
    (by decide) (by decide)

/-- Counterexample to C7 as stated: after three pops of the same /32 IPv6
endpoint within one pass (it is served from the head of `mempool_pending`
every time), the counter `crawl:cidr:2001:db8::1` reads 3, exceeding the cap
plus one (1 + 1 = 2): the increment at crawl.py:423 runs on every pop, also
for the pops that are then skipped. -/
theorem c7_counterexample :
    PassReach pm7 init7 sBad7 ∧
    cidrGet sBad7.cidr "2001:db8::1" = 3 ∧
    pm7.conf.nodes_per_plen + 1 < 3 := by
  refine ⟨?_, by decide, by decide⟩
  show PassReach pm7 init7
    (taskStep pm7 inp7 (taskStep pm7 inp7 (taskStep pm7 inp7 init7).1).1).1
  exact PassReach.worker _ _ inp7 (PassReach.worker _ _ inp7
    (PassReach.worker _ _ inp7 (PassReach.refl _)))
